import Mathlib

/-!
Verification development for the SolSniper message-monitoring bot
(`telethon_client.py`, `run_bot.py`).

The Python source is shallowly embedded: pure helper functions become Lean
functions over `List Char` / `String`, Python `float` values are modelled as
`ℚ` (every numeric literal and parse result relevant here is a terminating
decimal), Python `None` becomes `Option`, and the process-wide mutable state
(dedup cache, pause flag, strategy store) is threaded explicitly.  Regular
expressions used by the source are implemented as explicit scanners with the
same leftmost-match semantics on the character classes the patterns use.
-/

set_option maxRecDepth 4096

namespace SolSniper

/-- ASCII whitespace, matching Python's `str.strip` / `\s` for the ASCII range. -/
def isSpaceChar (c : Char) : Bool :=
  c = ' ' || c = '\t' || c = '\n' || c = '\r' || c = '\x0b' || c = '\x0c'

/-- The character class `[A-Za-z0-9]` of the token-address pattern. -/
def isAlnumChar (c : Char) : Bool :=
  c.isDigit || ('A' ≤ c && c ≤ 'Z') || ('a' ≤ c && c ≤ 'z')

/-- Python `str.strip()`: drop whitespace from both ends. -/
def stripChars (cs : List Char) : List Char :=
  ((cs.dropWhile isSpaceChar).reverse.dropWhile isSpaceChar).reverse

/-- Numeric value of a digit list (most significant first). -/
def digitsVal (cs : List Char) : Nat :=
  cs.foldl (fun acc c => 10 * acc + (c.toNat - 48)) 0

/-- `10 ^ n` on `Nat` by structural recursion (kernel-reducible). -/
def pow10 : Nat → Nat
  | 0 => 1
  | n + 1 => 10 * pow10 n

/--
Rational addition expressed through `Rat.divInt` so that closed terms reduce
in the kernel (`Rat.add` itself is `@[irreducible]`); `qAdd_eq` below shows it
is ordinary addition.
-/
def qAdd (a b : ℚ) : ℚ :=
  Rat.divInt (a.num * (b.den : ℤ) + b.num * (a.den : ℤ)) ((a.den : ℤ) * (b.den : ℤ))

/-- Rational subtraction through `Rat.divInt`; see `qSub_eq`. -/
def qSub (a b : ℚ) : ℚ :=
  Rat.divInt (a.num * (b.den : ℤ) - b.num * (a.den : ℤ)) ((a.den : ℤ) * (b.den : ℤ))

/-- Division of a rational by a natural number through `Rat.divInt`; see `qDivNat_eq`. -/
def qDivNat (a : ℚ) (n : ℕ) : ℚ :=
  Rat.divInt a.num ((a.den : ℤ) * (n : ℤ))

/-- Multiplication of a rational by a natural number through `Rat.divInt`; see `qMulNat_eq`. -/
def qMulNat (a : ℚ) (n : ℕ) : ℚ :=
  Rat.divInt (a.num * (n : ℤ)) (a.den : ℤ)

/-- Value of `[sign] intPart . fracPart` as a rational. -/
def decimalVal (neg : Bool) (ip fp : List Char) : ℚ :=
  let n : ℤ := (digitsVal (ip ++ fp) : ℤ)
  Rat.divInt (if neg then -n else n) (pow10 fp.length : ℤ)

/--
Python `float(s)` on a string whose characters are only digits, `.`, `+`, `-`
(the alphabet left after `_parse_number`'s character filter): an optional
single leading sign, then digits with at most one dot, at least one digit;
anything else raises (modelled as `none`).
-/
def pyFloatParse (cs : List Char) : Option ℚ :=
  let (neg, cs1) :=
    match cs with
    | '+' :: r => (false, r)
    | '-' :: r => (true, r)
    | r => (false, r)
  let ip := cs1.takeWhile Char.isDigit
  let rest := cs1.dropWhile Char.isDigit
  match rest with
  | [] => if ip = [] then none else some (decimalVal neg ip [])
  | '.' :: r2 =>
    let fp := r2.takeWhile Char.isDigit
    let rest2 := r2.dropWhile Char.isDigit
    if rest2 = [] then
      if ip = [] && fp = [] then none else some (decimalVal neg ip fp)
    else none
  | _ => none

/--
`_parse_number` (telethon_client.py:68): strip; empty ⇒ `None`; remove spaces;
if there are commas but no dots treat commas as decimal separators; drop every
character outside `[0-9.+-]`; reject strings that are only signs/dots; finally
Python `float()` (which may still fail, caught as `None`).
-/
def parseNumberL (cs : List Char) : Option ℚ :=
  let s1 := stripChars cs
  if s1 = [] then none
  else
    let s2 := s1.filter (fun c => c ≠ ' ')
    let s3 :=
      if s2.contains ',' && !s2.contains '.' then
        s2.map (fun c => if c = ',' then '.' else c)
      else s2
    let s4 := s3.filter (fun c => c.isDigit || c = '.' || c = '+' || c = '-')
    if s4 = [] || s4 = ['+'] || s4 = ['-'] || s4 = ['.'] ||
        s4 = ['+', '.'] || s4 = ['-', '.'] then none
    else pyFloatParse s4

/-- String wrapper for `_parse_number`. -/
def parse_number (s : String) : Option ℚ :=
  parseNumberL s.data

/-- Does `t` fully match `\d+(\.\d+)?` (the bare-number case of duration parsing)? -/
def isFullNum (t : List Char) : Bool :=
  let ip := t.takeWhile Char.isDigit
  let r := t.dropWhile Char.isDigit
  ip ≠ [] &&
    (r = [] ||
      (match r with
       | '.' :: r2 => r2 ≠ [] && r2.all Char.isDigit
       | _ => false))

/-- Value of a full `\d+(\.\d+)?` match. -/
def fullNumVal (t : List Char) : ℚ :=
  let ip := t.takeWhile Char.isDigit
  match t.dropWhile Char.isDigit with
  | '.' :: fp => decimalVal false ip fp
  | _ => decimalVal false ip []

/-- Convert a `<number><unit>` token to minutes (units s/m/h/d). -/
def unitMinutes (u : Char) (v : ℚ) : ℚ :=
  if u = 's' then qDivNat v 60
  else if u = 'm' then v
  else if u = 'h' then qMulNat v 60
  else qMulNat v 1440

/-- After a number, `\s*([smhd])`: skip whitespace, demand a unit letter. -/
def tryUnit (cs : List Char) : Option (Char × List Char) :=
  match cs.dropWhile isSpaceChar with
  | u :: rest => if u = 's' || u = 'm' || u = 'h' || u = 'd' then some (u, rest) else none
  | [] => none

/--
The `re.finditer(r"(\d+(?:\.\d+)?)\s*([smhd])", t)` scan of
`_parse_duration_to_minutes`: leftmost, non-overlapping matches; a greedy
fractional part is attempted first and dropped on failure (regex
backtracking; shrinking the digit runs can never help because the
continuation needs a non-digit).  Fuel is the remaining length, consumed at
least one character per step, so `length + 1` always suffices.
-/
def durScanGo : Nat → List Char → Bool × ℚ
  | 0, _ => (false, 0)
  | _ + 1, [] => (false, 0)
  | f + 1, c :: rest =>
    if c.isDigit then
      let ip := (c :: rest).takeWhile Char.isDigit
      let r1 := (c :: rest).dropWhile Char.isDigit
      let withFrac : Option (ℚ × List Char) :=
        match r1 with
        | '.' :: r2 =>
          let fp := r2.takeWhile Char.isDigit
          if fp = [] then none
          else
            match tryUnit (r2.dropWhile Char.isDigit) with
            | some (u, after) => some (unitMinutes u (decimalVal false ip fp), after)
            | none => none
        | _ => none
      let attempt : Option (ℚ × List Char) :=
        match withFrac with
        | some hit => some hit
        | none =>
          match tryUnit r1 with
          | some (u, after) => some (unitMinutes u (decimalVal false ip []), after)
          | none => none
      match attempt with
      | some (v, after) =>
        let t := durScanGo f after
        (true, qAdd v t.2)
      | none => durScanGo f rest
    else durScanGo f rest

/--
`_parse_duration_to_minutes` (telethon_client.py:92): strip and lowercase; a
purely numeric string is minutes; otherwise sum every `<number><unit>` token;
return `None` when nothing matched or the total is not positive.
-/
def parse_duration_to_minutes (s : String) : Option ℚ :=
  let t := (stripChars s.data).map Char.toLower
  if t = [] then none
  else if isFullNum t then some (fullNumVal t)
  else
    let r := durScanGo (t.length + 1) t
    if r.1 && decide (0 < r.2) then some r.2 else none

/--
`extract_token_address` (telethon_client.py:52): `re.search` of
`[A-Za-z0-9]{32,44}` returns the leftmost position that starts at least 32
consecutive alphanumeric characters, matching greedily up to 44 of them.
The two labelled patterns (`CA:`/`Token:`) are tried only when this first
pattern found nothing, and their capture group is itself a 32-44 character
alphanumeric run, so they can never match when the first pattern failed;
the scan below therefore implements the whole function.
-/
def extractGo : List Char → Option (List Char)
  | [] => none
  | c :: rest =>
    let run := (c :: rest).takeWhile isAlnumChar
    if 32 ≤ run.length then some (run.take 44) else extractGo rest

/-- String wrapper for `extract_token_address`. -/
def extract_token_address (s : String) : Option String :=
  (extractGo s.data).map String.mk

/-- Whitespace collapsing for `_normalize_text`: each whitespace run becomes one space. -/
def collapseWs : Bool → List Char → List Char
  | _, [] => []
  | prevSpace, c :: r =>
    if isSpaceChar c then
      if prevSpace then collapseWs true r else ' ' :: collapseWs true r
    else c :: collapseWs false r

/-- `_normalize_text` (telethon_client.py:1820): strip, lowercase, collapse `\s+` to a space. -/
def normalize_text (s : String) : String :=
  String.mk (collapseWs false ((stripChars s.data).map Char.toLower))

/--
Stand-in for `hashlib.sha1(...).hexdigest()` on the normalized text.  The
digest is modelled as an injective placeholder (the text itself): no property
proved in this development depends on the digest's value or on SHA-1
collisions, only on equality of keys derived from equal or distinct inputs.
-/
def sha1_hex (s : String) : String := s

/--
`_dedupe_key_for` (telethon_client.py:1826): the extracted token address when
present, otherwise a digest of the normalized message text, tagged so the two
key families cannot collide.
-/
def dedupe_key_for (text : String) : String :=
  match extract_token_address text with
  | some addr => "token:" ++ addr
  | none => "msg:" ++ sha1_hex (normalize_text text)

/-- `DEDUP_TTL_SECONDS = 6 * 60 * 60` (telethon_client.py:36). -/
def DEDUP_TTL_SECONDS : ℚ := 21600

/-- The dedup cache `_processed_cache`, an insertion-ordered map key → timestamp. -/
abbrev Cache := List (String × ℚ)

/-- Python `dict` assignment on the association-list model: replace the first binding or append. -/
def setKey (l : Cache) (k : String) (v : ℚ) : Cache :=
  match l with
  | [] => [(k, v)]
  | (k', v') :: rest => if k' = k then (k, v) :: rest else (k', v') :: setKey rest k v

/--
`_is_duplicate` (telethon_client.py:1834) with the cache and clock passed
explicitly: evict entries older than the TTL, then report a live hit for the
derived key without refreshing its timestamp, otherwise record `key → now`.
Returns (verdict, updated cache).
-/
def is_duplicate (cache : Cache) (now : ℚ) (text : String) : Bool × Cache :=
  let c1 := cache.filter (fun kv => !decide (DEDUP_TTL_SECONDS < qSub now kv.2))
  let key := dedupe_key_for text
  match c1.lookup key with
  | some ts =>
    if qSub now ts ≤ DEDUP_TTL_SECONDS then (true, c1)
    else (false, setKey c1 key now)
  | none => (false, setKey c1 key now)

/--
A value stored under one key of a strategy's `filters` mapping.  The
constructors cover the value shapes this JSON field takes in the program:
`null`, a string, a number, or a `{from, to}` dict whose bounds may be `null`.
-/
inductive FVal where
  | vnone : FVal
  | vstr : String → FVal
  | vnum : ℚ → FVal
  | vrange : Option ℚ → Option ℚ → FVal
deriving DecidableEq

/-- A strategy's `filters` mapping (insertion-ordered, unique keys). -/
abbrev Filters := List (String × FVal)

/-- Python truthiness of a filter value (`if v:`); a `{from, to}` dict is never empty. -/
def pyTruthy : FVal → Bool
  | FVal.vnone => false
  | FVal.vstr s => s ≠ ""
  | FVal.vnum q => q ≠ 0
  | FVal.vrange _ _ => true

/--
`str(v).strip()` is truthy and differs from `'Any'` (the label branch of
`_count_filled_filters`).  `str()` of a number or of a `{from, to}` dict is a
non-empty string that is never `'Any'`, so only genuine strings need the test.
-/
def strStripNonAny : FVal → Bool
  | FVal.vstr s =>
    let t := String.mk (stripChars s.data)
    t ≠ "" && t ≠ "Any"
  | _ => true

/-- `v not in (None, '', 'Any')` (the final branch of `_count_filled_filters`). -/
def notNoneEmptyAny : FVal → Bool
  | FVal.vnone => false
  | FVal.vstr s => s ≠ "" && s ≠ "Any"
  | _ => true

/-- Contribution of one `filters` entry to `_count_filled_filters`. -/
def countOne (k : String) (v : FVal) : Nat :=
  match v with
  | FVal.vrange (some _) (some _) => 1
  | _ =>
    if k = "Label" || k = "Mention" then
      if pyTruthy v && strStripNonAny v then 1 else 0
    else
      if notNoneEmptyAny v then 1 else 0

/--
`_count_filled_filters` (telethon_client.py:570): a `{from, to}` dict with
both bounds non-null counts; a `Label`/`Mention` value counts when truthy,
non-blank and not `'Any'`; any other value counts unless it equals `None`,
`''` or `'Any'` (in particular a `{from, to}` dict with a null bound still
counts through this last branch).
-/
def count_filled_filters (fs : Filters) : Nat :=
  fs.foldl (fun cnt kv => cnt + countOne kv.1 kv.2) 0

/--
The signal set extracted by `parse_message_fields` (telethon_client.py:149):
`first_buy_pct`, `balance_sol`, `tx_count`, `label`, each nullable.
-/
structure ParsedFields where
  first_buy_pct : Option ℚ
  balance_sol : Option ℚ
  tx_count : Option ℤ
  label : Option String
deriving DecidableEq

/--
`token_age_passes` (telethon_client.py:257) with the exception channel made
explicit: when the `Token Age (minutes)` value is a `{from, to}` dict, the
bounds are converted with `float()` outside any `try`, so a null bound raises
(modelled as `none`); a missing key or a non-range value passes.
-/
def tokenAgeCheckE (v : Option FVal) (age : ℚ) : Option Bool :=
  match v with
  | some (FVal.vrange (some lo) (some hi)) => some (decide (lo ≤ age) && decide (age ≤ hi))
  | some (FVal.vrange _ _) => none
  | _ => some true

/--
`range_filter_passes` (telethon_client.py:267): a missing or non-range filter
passes; a present range fails on a null value; the bound conversions run in a
`try` whose handler returns `False`, so a null bound fails instead of raising.
-/
def range_filter_passes (v : Option FVal) (value : Option ℚ) : Bool :=
  match v with
  | some (FVal.vrange lo? hi?) =>
    match value with
    | none => false
    | some x =>
      match lo?, hi? with
      | some lo, some hi => decide (lo ≤ x) && decide (x ≤ hi)
      | _, _ => false
  | _ => true

/--
`label_filter_passes` (telethon_client.py:281): a falsy expected value or the
wildcard `'Any'` passes regardless of the detected label; otherwise plain
equality (a non-string expected value never equals a detected string or null).
-/
def label_filter_passes (v : Option FVal) (detected : Option String) : Bool :=
  match v with
  | none => true
  | some e =>
    if !pyTruthy e then true
    else if e = FVal.vstr "Any" then true
    else
      match e, detected with
      | FVal.vstr s, some d => s = d
      | _, _ => false

/--
The legacy-key normalization at the top of the evaluation loop
(telethon_client.py:381): copy `First Buy (count)` to `First Buy (%)` and
`Mention` to `Label` when the current-schema key is absent (dict insertion
appends).
-/
def normalizeLegacy (f : Filters) : Filters :=
  let f1 :=
    match f.lookup "First Buy (%)", f.lookup "First Buy (count)" with
    | none, some v => f ++ [("First Buy (%)", v)]
    | _, _ => f
  match f1.lookup "Label", f1.lookup "Mention" with
  | none, some v => f1 ++ [("Label", v)]
  | _, _ => f1

/--
One strategy's filter evaluation in `process_token_message`
(telethon_client.py:387-409): legacy keys normalized, then the five checks in
source order with short-circuiting `continue`s; `none` is the exception path
(a raising token-age check aborts this strategy inside the per-strategy
`try`, which logs and moves on).
-/
def evalStrategy (f : Filters) (p : ParsedFields) (age : ℚ) : Option Bool :=
  let g := normalizeLegacy f
  match tokenAgeCheckE (g.lookup "Token Age (minutes)") age with
  | none => none
  | some ta =>
    if !ta then some false
    else if !range_filter_passes (g.lookup "First Buy (%)") p.first_buy_pct then some false
    else if !range_filter_passes (g.lookup "Balance (SOL)") p.balance_sol then some false
    else if !range_filter_passes (g.lookup "Transactions (count)")
        (p.tx_count.map (fun i => (i : ℚ))) then some false
    else if !label_filter_passes (g.lookup "Label") p.label then some false
    else some true

/--
The five individual filter verdicts of `evalStrategy`, in source order.  A
filter absent from the strategy contributes `true` (opt-in semantics); the
token-age entry is `true` exactly when that check runs without raising and
passes.
-/
def checkList (f : Filters) (p : ParsedFields) (age : ℚ) : List Bool :=
  let g := normalizeLegacy f
  [ tokenAgeCheckE (g.lookup "Token Age (minutes)") age = some true,
    range_filter_passes (g.lookup "First Buy (%)") p.first_buy_pct,
    range_filter_passes (g.lookup "Balance (SOL)") p.balance_sol,
    range_filter_passes (g.lookup "Transactions (count)") (p.tx_count.map (fun i => (i : ℚ))),
    label_filter_passes (g.lookup "Label") p.label ]

/-- The JSON value stored under a strategy's `owner_id` key. -/
inductive OwnerVal where
  | vnone : OwnerVal
  | vint : ℤ → OwnerVal
  | vstr : String → OwnerVal
deriving DecidableEq

/-- Digit run with single underscores between digits, as accepted by Python `int(str)`. -/
def pyIntGo (acc : Nat) : List Char → Option Nat
  | [] => some acc
  | c :: r =>
    if c.isDigit then pyIntGo (10 * acc + (c.toNat - 48)) r
    else if c = '_' then
      match r with
      | d :: r' => if d.isDigit then pyIntGo (10 * acc + (d.toNat - 48)) r' else none
      | [] => none
    else none

/-- Nonempty digit run (underscore rules as in Python `int`). -/
def pyIntDigits : List Char → Option Nat
  | [] => none
  | c :: r => if c.isDigit then pyIntGo (c.toNat - 48) r else none

/--
Python `int(s)` for a string: surrounding whitespace stripped, optional sign,
digits with single internal underscores; anything else raises (`none`).
-/
def pyIntOfString (s : String) : Option ℤ :=
  match stripChars s.data with
  | '+' :: r => (pyIntDigits r).map (fun n => (n : ℤ))
  | '-' :: r => (pyIntDigits r).map (fun n => -(n : ℤ))
  | r => (pyIntDigits r).map (fun n => (n : ℤ))

/-- The `trojan` order-parameter record of a strategy, each field nullable. -/
structure Trojan where
  amount : Option ℚ
  expiry_minutes : Option ℚ
  slippage_pct : Option ℚ
  trigger_price : Option ℚ
deriving DecidableEq

/-- One strategy record of `strategies.json` (§3 of the spec). -/
structure Strategy where
  id : Option ℤ
  name : String
  owner_id : OwnerVal
  group : Option String
  enabled : Bool
  filters : Filters
  action : Option (String × String)
  trojan : Option Trojan
deriving DecidableEq

/--
`_belongs_to` (telethon_client.py:44): a null `owner_id` belongs to anyone; a
null requester owns nothing else (the `and` short-circuits before `int()` is
reached, so no exception); a stored value `int()` cannot convert raises inside
the `try`, and the handler returns `True`.
-/
def belongs_to (st : Strategy) (owner : Option ℤ) : Bool :=
  match st.owner_id with
  | OwnerVal.vnone => true
  | OwnerVal.vint i =>
    match owner with
    | none => false
    | some o => i = o
  | OwnerVal.vstr s =>
    match owner with
    | none => false
    | some o =>
      match pyIntOfString s with
      | some i => i = o
      | none => true

/-- The owner-scoped view used by every listing/mutation site: `[s for s in items if _belongs_to(s, owner)]`. -/
def ownedBy (l : List Strategy) (owner : ℤ) : List Strategy :=
  l.filter (fun x => belongs_to x (some owner))

/-- Python `a or b` for an optional string (`None` and `''` are falsy). -/
def pyOrStr (a : Option String) (dflt : String) : String :=
  match a with
  | some s => if s = "" then dflt else s
  | none => dflt

/--
The builder's draft (`CONV_STATE[chat]['data']`): the fields the save branch
reads.
-/
structure ConvDraft where
  name : Option String
  group : Option String
  filters : Filters
  action : Option (String × String)
  trojan : Option Trojan
deriving DecidableEq

/-- The conversation mode of a pending save: fresh create, or edit of owned index `idx`. -/
inductive SaveMode where
  | create : SaveMode
  | edit : ℤ → SaveMode
deriving DecidableEq

/-- The user-visible outcome of the `save` callback branch. -/
inductive SaveOutcome where
  | noGroup : SaveOutcome
  | tooFewFilters : SaveOutcome
  | savedCreate : SaveOutcome
  | savedEdit : SaveOutcome
  | editFailed : SaveOutcome
deriving DecidableEq

/-- `d.get('name') or target.get('name') or f"Strategy {t}"` of the edit-save path. -/
def editName (draftName : Option String) (oldName : String) (nowTs : ℤ) : String :=
  pyOrStr draftName (if oldName = "" then "Strategy " ++ toString nowTs else oldName)

/-- Position (0-based) in the full list of the `n`-th (1-based) entry satisfying `p`. -/
def findNthFull (p : Strategy → Bool) : List Strategy → Nat → Option Nat
  | [], _ => none
  | x :: r, n =>
    if p x then
      if n ≤ 1 then some 0
      else (findNthFull p r (n - 1)).map (fun i => i + 1)
    else (findNthFull p r n).map (fun i => i + 1)

/-- The in-place mutation of the edited strategy: `id`, `owner_id`, `enabled` preserved. -/
def updateStrategy (old : Strategy) (d : ConvDraft) (nowTs : ℤ) : Strategy :=
  ⟨old.id, editName d.name old.name nowTs, old.owner_id, d.group, old.enabled,
    d.filters, d.action, d.trojan⟩

/--
The `save` callback branch of `on_button` (telethon_client.py:1187-1251),
with the persisted list threaded explicitly: first the group guard (`not
d.get('group')`), then the minimum-filter gate for non-order-venue groups,
then create (append a new strategy owned by the sender) or edit (rewrite the
entry of the full list that the owner-scoped index designates).  Persistence
always succeeds in the model; write failures are out of scope here.
-/
def onSave (mode : SaveMode) (d : ConvDraft) (senderId : ℤ) (nowTs : ℤ)
    (store : List Strategy) : SaveOutcome × List Strategy :=
  match d.group with
  | none => (SaveOutcome.noGroup, store)
  | some g =>
    if g = "" then (SaveOutcome.noGroup, store)
    else if g ≠ "@solana_trojanbot" && count_filled_filters d.filters < 3 then
      (SaveOutcome.tooFewFilters, store)
    else
      match mode with
      | SaveMode.create =>
        let strat : Strategy :=
          ⟨some nowTs, pyOrStr d.name ("Strategy " ++ toString nowTs),
            OwnerVal.vint senderId, some g, true, d.filters, d.action, d.trojan⟩
        (SaveOutcome.savedCreate, store ++ [strat])
      | SaveMode.edit eidx =>
        let p := fun x => belongs_to x (some senderId)
        let owned := store.filter p
        if 1 ≤ eidx && eidx ≤ (owned.length : ℤ) then
          match owned.get? (eidx.toNat - 1), findNthFull p store eidx.toNat with
          | some old, some fullIdx =>
            (SaveOutcome.savedEdit, store.set fullIdx (updateStrategy old d nowTs))
          | _, _ => (SaveOutcome.editFailed, store)
        else (SaveOutcome.editFailed, store)

/--
The number of "meaningfully set" filter options exactly as the specification
words it, for comparison with the implementation's `count_filled_filters`: a
range counts only when both `from` and `to` are non-null; a label counts only
when non-empty and not the wildcard `any`; nothing else counts.
-/
def claimedMeaningfulFilterCount (fs : Filters) : Nat :=
  fs.foldl
    (fun cnt kv =>
      cnt +
        match kv.2 with
        | FVal.vrange (some _) (some _) => 1
        | FVal.vstr s =>
          if (kv.1 = "Label" || kv.1 = "Mention") && s ≠ "" &&
              String.mk (s.data.map Char.toLower) ≠ "any" then 1 else 0
        | _ => 0)
    0

/-- Split on a separator character (`re.split(r'\s*,\s*')` up to the stripping `_parse_number` performs anyway). -/
def splitOnChar (sep : Char) : List Char → List (List Char)
  | [] => [[]]
  | c :: r =>
    let ps := splitOnChar sep r
    if c = sep then [] :: ps
    else
      match ps with
      | p :: rest => (c :: p) :: rest
      | [] => [[c]]

/--
A separator match of `\s*(?:-|to)\s*` starting exactly here: the greedy
whitespace run must be followed by `-` or `to` (whitespace and those starters
are disjoint, so no other backtracking exists); returns the remainder after
the trailing whitespace.
-/
def matchSep (cs : List Char) : Option (List Char) :=
  match cs.dropWhile isSpaceChar with
  | '-' :: rest => some (rest.dropWhile isSpaceChar)
  | 't' :: 'o' :: rest => some (rest.dropWhile isSpaceChar)
  | _ => none

/--
`re.split(r'\s*(?:-|to)\s*', t)`: leftmost, non-overlapping separator
matches.  Fuel decreases once per consumed character, so `length + 1`
suffices from the wrapper.
-/
def splitSepGo : Nat → List Char → List Char → List (List Char)
  | 0, acc, cs => [acc ++ cs]
  | _ + 1, acc, [] => [acc]
  | f + 1, acc, c :: rest =>
    match matchSep (c :: rest) with
    | some after => acc :: splitSepGo f [] after
    | none => splitSepGo f (acc ++ [c]) rest

/-- Wrapper for the dash/`to` split. -/
def splitDashTo (t : List Char) : List (List Char) :=
  splitSepGo (t.length + 1) [] t

/-- The character class `[\d.,]` of the number-token pattern. -/
def numTokChar (c : Char) : Bool :=
  c.isDigit || c = '.' || c = ','

/--
`re.findall(r'[+-]?[\d.,]+', t)`: leftmost, non-overlapping matches; an
optional sign must be followed by at least one class character.
-/
def findallNumGo : Nat → List Char → List (List Char)
  | 0, _ => []
  | _ + 1, [] => []
  | f + 1, c :: rest =>
    if c = '+' || c = '-' then
      match rest with
      | d :: _ =>
        if numTokChar d then
          (c :: rest.takeWhile numTokChar) :: findallNumGo f (rest.dropWhile numTokChar)
        else findallNumGo f rest
      | [] => []
    else if numTokChar c then
      ((c :: rest).takeWhile numTokChar) :: findallNumGo f ((c :: rest).dropWhile numTokChar)
    else findallNumGo f rest

/-- Wrapper for the number-token scan. -/
def findallNum (t : List Char) : List (List Char) :=
  findallNumGo (t.length + 1) t

/-- Final step of `_parse_range`: both bounds must parse; they are stored low-to-high. -/
def orderPair (a b : Option ℚ) : Option (ℚ × ℚ) :=
  match a, b with
  | some a, some b => some (if a ≤ b then (a, b) else (b, a))
  | _, _ => none

/--
The candidate bound strings of `_parse_range` (telethon_client.py:620):
comma-separated pair first, then dash/`to`-separated, then two bare number
tokens, finally the whole input as a single value used for both bounds.
-/
def rawRangeParts (t : List Char) : Option ℚ × Option ℚ :=
  match splitOnChar ',' t with
  | [p0, p1] => (parseNumberL p0, parseNumberL p1)
  | _ =>
    match splitDashTo t with
    | [q0, q1] => (parseNumberL q0, parseNumberL q1)
    | _ =>
      match findallNum t with
      | [r0, r1] => (parseNumberL r0, parseNumberL r1)
      | _ => (parseNumberL t, parseNumberL t)

/--
`_parse_range` (telethon_client.py:620): strip and lowercase; `''`/`skip`/
`none` clear the filter; en/em dashes become hyphens; then the candidate
split, and the two parsed bounds are returned as `{from ≤ to}`.
-/
def parse_range (s : String) : Option (ℚ × ℚ) :=
  let t0 := (stripChars s.data).map Char.toLower
  if t0 = [] || t0 = "skip".data || t0 = "none".data then none
  else
    let t := t0.map (fun c => if c = '–' || c = '—' then '-' else c)
    orderPair (rawRangeParts t).1 (rawRangeParts t).2

/-- `dict` assignment on `Filters` (same shape as `setKey` on the cache). -/
def setFilter (l : Filters) (k : String) (v : FVal) : Filters :=
  match l with
  | [] => [(k, v)]
  | (k', v') :: rest => if k' = k then (k, v) :: rest else (k', v') :: setFilter rest k v

/--
The range-committing step of `bot_conversation` (telethon_client.py:1415):
an input `_parse_range` rejects re-prompts and leaves the draft untouched; an
accepted one is stored under the filter key as `{'from': lo, 'to': hi}`.
-/
def commitRange (key : String) (text : String) (fs : Filters) : Filters :=
  match parse_range text with
  | none => fs
  | some (lo, hi) => setFilter fs key (FVal.vrange (some lo) (some hi))

/-- The strategy-level invariant of §3: every fully-set range is ordered. -/
def rangesOrdered (fs : Filters) : Prop :=
  ∀ k lo hi, fs.lookup k = some (FVal.vrange (some lo) (some hi)) → lo ≤ hi

/-- Scanner state of the `str.format_map` model: literal text, just after `\x7b`, just after `\x7d`, or inside a field name. -/
inductive FmtState where
  | text : FmtState
  | brace : FmtState
  | rbrace : FmtState
  | field : List Char → FmtState

/-- Prepend a character to a successful render. -/
def consOk (c : Char) : Except String (List Char) → Except String (List Char)
  | Except.ok t => Except.ok (c :: t)
  | Except.error e => Except.error e

/-- Prepend a substituted value to a successful render. -/
def appendOk (s : List Char) : Except String (List Char) → Except String (List Char)
  | Except.ok t => Except.ok (s ++ t)
  | Except.error e => Except.error e

/-- Characters that end or change the meaning of a simple field name
(`!conversion`, `:format-spec`, attribute and index access).  The model
treats a field containing them as raising; CPython would apply the
conversion/format machinery there, which the program's templates
(`buy {token}` style) never use. -/
def fmtSpecialChar (c : Char) : Bool :=
  c = '!' || c = ':' || c = '.' || c = '['

/-- A usable simple field name: non-empty, not a positional (all-digit) field
(those raise for `format_map` with no positional arguments), and free of
conversion/format-spec/attribute syntax. -/
def validFieldName (acc : List Char) : Bool :=
  acc ≠ [] && !(acc.all Char.isDigit) && !(acc.any fmtSpecialChar)

/--
`template.format_map(_D(ctx))` of `_safe_format` (telethon_client.py:287),
as a character-driven scanner: doubled braces are literals, `\x7bname\x7d`
substitutes the context value with `''` for a missing key (the `__missing__`
hook), and malformed templates — a lone brace, an empty or positional field,
nested braces — raise (`Except.error`), exactly the cases `__missing__`
cannot intercept.
-/
def fmtRun (ctx : String → Option String) : List Char → FmtState → Except String (List Char)
  | [], FmtState.text => Except.ok []
  | [], FmtState.brace => Except.error "Single open brace encountered in format string"
  | [], FmtState.field _ => Except.error "Single open brace encountered in format string"
  | [], FmtState.rbrace => Except.error "Single closing brace encountered in format string"
  | c :: rest, FmtState.text =>
    if c = '\x7b' then fmtRun ctx rest FmtState.brace
    else if c = '\x7d' then fmtRun ctx rest FmtState.rbrace
    else consOk c (fmtRun ctx rest FmtState.text)
  | c :: rest, FmtState.brace =>
    if c = '\x7b' then consOk '\x7b' (fmtRun ctx rest FmtState.text)
    else if c = '\x7d' then Except.error "Replacement index out of range"
    else fmtRun ctx rest (FmtState.field [c])
  | c :: rest, FmtState.rbrace =>
    if c = '\x7d' then consOk '\x7d' (fmtRun ctx rest FmtState.text)
    else Except.error "Single closing brace encountered in format string"
  | c :: rest, FmtState.field acc =>
    if c = '\x7d' then
      if validFieldName acc then
        appendOk ((ctx (String.mk acc)).getD "").data (fmtRun ctx rest FmtState.text)
      else Except.error "Invalid replacement field"
    else if c = '\x7b' then Except.error "Unexpected open brace in field name"
    else fmtRun ctx rest (FmtState.field (acc ++ [c]))

/-- `_safe_format`: render a template against a context, `''` for missing keys. -/
def safe_format (template : String) (ctx : String → Option String) : Except String String :=
  match fmtRun ctx template.data FmtState.text with
  | Except.ok cs => Except.ok (String.mk cs)
  | Except.error e => Except.error e

/-- A well-formed template segment: literal text or a named placeholder. -/
inductive Seg where
  | lit : List Char → Seg
  | field : List Char → Seg

/-- The template string a segment list denotes. -/
def encodeSegs : List Seg → List Char
  | [] => []
  | Seg.lit s :: r => s ++ encodeSegs r
  | Seg.field n :: r => '\x7b' :: (n ++ ('\x7d' :: encodeSegs r))

/-- The rendering the dispatcher's substitution rule prescribes: literals kept,
each placeholder replaced by its context value, missing values by `''`. -/
def renderSegs (ctx : String → Option String) : List Seg → List Char
  | [] => []
  | Seg.lit s :: r => s ++ renderSegs ctx r
  | Seg.field n :: r => ((ctx (String.mk n)).getD "").data ++ renderSegs ctx r

/-- A character with no brace in it. -/
def nonBrace (c : Char) : Bool :=
  !(c = '\x7b' || c = '\x7d')

/-- Validity of a segment: literals are brace-free; field names are usable simple names. -/
def validSeg : Seg → Bool
  | Seg.lit s => s.all nonBrace
  | Seg.field n => validFieldName n && n.all nonBrace

/-- Validity of a whole template. -/
def validSegs (ts : List Seg) : Bool :=
  ts.all validSeg

/-- Decimal digit character of a value `< 10`. -/
def digitChar (n : Nat) : Char :=
  Char.ofNat (48 + n)

/-- Decimal digits of the fraction `r / d` by repeated multiplication; stops
when the remainder vanishes.  Fuel bounds the output (Python floats print at
most 17 significant digits; every value this development evaluates
terminates well inside the fuel). -/
def fracDigitsNat : Nat → Nat → Nat → List Char
  | 0, _, _ => []
  | _ + 1, 0, _ => []
  | f + 1, r, d =>
    let r10 := r * 10
    digitChar (r10 / d) :: fracDigitsNat f (r10 % d) d

/--
Python `str(float)` for the terminating decimals that reach the f-string of
`_send_limit_to_trojan`: sign, integer part, a dot, then the fraction digits
(`"0"` when integral, so `1.0` prints as `1.0`).  Binary-float rounding of
non-terminating values is not modelled; no verified property evaluates one.
-/
def pyFloatRepr (q : ℚ) : String :=
  let n := q.num.natAbs
  let d := q.den
  let ds := if n % d = 0 then ['0'] else fracDigitsNat 32 (n % d) d
  (if decide (q < 0) then "-" else "") ++ toString (n / d) ++ "." ++ String.mk ds

/-- Python `int()` on a float: truncation toward zero. -/
def pyIntOfRat (q : ℚ) : ℤ :=
  q.num.tdiv (q.den : ℤ)

/--
The command string of `_send_limit_to_trojan` (telethon_client.py:305):
`f"/limit token={token} amount={amount} slippage={slippage} trigger={trigger}
expiry={int(expiry)}"` — the expiry argument is the stored minutes value,
truncated to an integer.
-/
def limitCommand (token : String) (amount expiry slippage trigger : ℚ) : String :=
  "/limit token=" ++ token ++ " amount=" ++ pyFloatRepr amount ++
    " slippage=" ++ pyFloatRepr slippage ++ " trigger=" ++ pyFloatRepr trigger ++
    " expiry=" ++ toString (pyIntOfRat expiry)

/--
The completed ad-hoc LIMIT conversation (telethon_client.py:1533-1583): each
step re-prompts on unparseable input without advancing, so a completed flow
is exactly one whose amount/slippage/trigger parse as numbers and whose
expiry parses as a duration; it then hands `limitCommand` to the fixed venue
`solana_trojanbot`.  The match-seeded `limit` flow (telethon_client.py:
1476-1532) collects and passes the same five values the same way.
-/
def limitAdHocFlow (token amountTxt expiryTxt slippageTxt triggerTxt : String) :
    Option (String × String) :=
  match parse_number amountTxt, parse_duration_to_minutes expiryTxt,
      parse_number slippageTxt, parse_number triggerTxt with
  | some a, some e, some sl, some tr =>
    some ("solana_trojanbot", limitCommand token a e sl tr)
  | _, _, _, _ => none

/--
What one inbound group message produced inside
`process_token_message`/`process_trojan_message`: whether
`parse_message_fields` ran, and which strategies fired (`matched`).
-/
structure ProcResult where
  parseInvoked : Bool
  matched : List Strategy
deriving DecidableEq

/--
`process_token_message` (telethon_client.py:350): the pause flag is checked
first and drops the message before any field extraction; otherwise the text
is parsed and every enabled strategy bound to `@<group>` is evaluated.  The
field extractor is passed as a function parameter: its regular expressions
are irrelevant to the verified properties, which quantify over its output.
-/
def process_token_message (parseFn : String → ParsedFields) (paused : Bool)
    (strategies : List Strategy) (groupUsername : String) (age : ℚ) (text : String) :
    ProcResult :=
  if paused then ⟨false, []⟩
  else
    let parsed := parseFn text
    let gui := "@" ++ groupUsername
    ⟨true, strategies.filter
      (fun st => st.enabled && st.group = some gui && evalStrategy st.filters parsed age = some true)⟩

/-- All four `trojan` fields present (`None in (...)` check of `process_trojan_message`). -/
def trojanComplete : Option Trojan → Bool
  | none => false
  | some t =>
    t.amount.isSome && t.expiry_minutes.isSome && t.slippage_pct.isSome && t.trigger_price.isSome

/--
`process_trojan_message` (telethon_client.py:1735): pause checked first;
`parse_message_fields` is never called on this path; an enabled strategy of
the venue group with all four `trojan` fields prepares an order.
-/
def process_trojan_message (paused : Bool) (strategies : List Strategy)
    (groupUsername : String) : ProcResult :=
  if paused then ⟨false, []⟩
  else
    let gui := "@" ++ groupUsername
    ⟨false, strategies.filter
      (fun st => st.enabled && st.group = some gui && trojanComplete st.trojan)⟩

/-- Result of the top-level message handler: the cache after the duplicate
check, and the processing result (`none` when the message was dropped as a
duplicate or came from an unmonitored group). -/
structure HandlerResult where
  cache : Cache
  proc : Option ProcResult
deriving DecidableEq

/--
The `handler` for `events.NewMessage` (telethon_client.py:1701): monitored
groups only; `_is_duplicate` runs FIRST and updates the cache, then the
message is dispatched to the trojan or token pipeline, each of which checks
the pause flag at its top.
-/
def handler (parseFn : String → ParsedFields) (paused : Bool)
    (strategies : List Strategy) (cache : Cache) (now : ℚ)
    (groupUsername : String) (age : ℚ) (text : String) : HandlerResult :=
  if groupUsername = "SolanaNewPumpfun" || groupUsername = "solana_trojanbot" then
    let r := is_duplicate cache now text
    if r.1 then ⟨r.2, none⟩
    else if groupUsername = "solana_trojanbot" then
      ⟨r.2, some (process_trojan_message paused strategies groupUsername)⟩
    else
      ⟨r.2, some (process_token_message parseFn paused strategies groupUsername age text)⟩
  else ⟨cache, none⟩

/-- A concrete field extractor returning no signals, used for closed evaluations. -/
def parseFnStub : String → ParsedFields :=
  fun _ => ⟨none, none, none, none⟩

/-- A context with a single binding, used for closed evaluations. -/
def singletonCtx (k v : String) : String → Option String :=
  fun n => if n = k then some v else none

/-- The empty context, used for closed evaluations. -/
def emptyCtx : String → Option String :=
  fun _ => none

/-- The draft of the C3 counterexample: three ranges with a null upper bound. -/
def halfRangeFilters : Filters :=
  [("Token Age (minutes)", FVal.vrange (some 1) none),
   ("First Buy (%)", FVal.vrange (some 2) none),
   ("Balance (SOL)", FVal.vrange (some 3) none)]

/-- The draft the C3 counterexample saves. -/
def halfRangeDraft : ConvDraft :=
  ⟨some "half ranges", some "@SolanaNewPumpfun", halfRangeFilters, none, none⟩

/-- 32 uppercase `A`s: an extractable token address. -/
def upperToken : String :=
  String.mk (List.replicate 32 'A')

/-- 32 lowercase `a`s: the same text after normalization, a different address. -/
def lowerToken : String :=
  String.mk (List.replicate 32 'a')

/-- The strategy of the C10 witness: a non-numeric string `owner_id`. -/
def legacyStrat : Strategy :=
  ⟨none, "legacy", OwnerVal.vstr "admin", some "@SolanaNewPumpfun", true, [], none, none⟩

/-- Filters of the C5 witness: the balance-range scenario of spec §8. -/
def balanceFilters : Filters :=
  [("Balance (SOL)", FVal.vrange (some 1) (some 5))]

/-- Signals of the C5 witness: `balance_sol = 3.2`. -/
def balanceParsed : ParsedFields :=
  ⟨none, some (mkRat 16 5), none, none⟩

/-- The template of the C8 witness: `buy ` followed by the `token` placeholder. -/
def buyTokenSegs : List Seg :=
  [Seg.lit "buy ".data, Seg.field "token".data]

section Lemmas

/-- `qSub` is ordinary rational subtraction. -/
theorem qSub_eq (a b : ℚ) : qSub a b = a - b := by
  have ha : ((a.den : ℤ) : ℚ) ≠ 0 := by
    exact_mod_cast (Nat.cast_ne_zero).mpr a.den_nz
  have hb : ((b.den : ℤ) : ℚ) ≠ 0 := by
    exact_mod_cast (Nat.cast_ne_zero).mpr b.den_nz
  have ha' : (a.den : ℤ) ≠ 0 := Int.natCast_ne_zero.mpr a.den_nz
  have hb' : (b.den : ℤ) ≠ 0 := Int.natCast_ne_zero.mpr b.den_nz
  conv_rhs => rw [← Rat.num_divInt_den a, ← Rat.num_divInt_den b]
  rw [Rat.divInt_sub_divInt _ _ ha' hb', qSub]

/-- `l.all id` is invariant under permutation. -/
theorem all_id_perm {l l' : List Bool} (h : l.Perm l') :
    (l.all id = true ↔ l'.all id = true) := by
  simp only [List.all_eq_true, id]
  exact ⟨fun hx x hm => hx x (h.mem_iff.mpr hm), fun hx x hm => hx x (h.mem_iff.mp hm)⟩

/-- `evalStrategy` succeeds exactly when every entry of `checkList` holds. -/
theorem evalStrategy_eq_checks (f : Filters) (p : ParsedFields) (age : ℚ) :
    evalStrategy f p age = some true ↔ (checkList f p age).all id = true := by
  simp only [evalStrategy, checkList]
  cases h : tokenAgeCheckE ((normalizeLegacy f).lookup "Token Age (minutes)") age with
  | none => simp [h]
  | some ta =>
    cases ta with
    | false => simp [h]
    | true =>
      cases h1 : range_filter_passes ((normalizeLegacy f).lookup "First Buy (%)") p.first_buy_pct <;>
      cases h2 : range_filter_passes ((normalizeLegacy f).lookup "Balance (SOL)") p.balance_sol <;>
      cases h3 : range_filter_passes ((normalizeLegacy f).lookup "Transactions (count)")
          (p.tx_count.map (fun i => (i : ℚ))) <;>
      cases h4 : label_filter_passes ((normalizeLegacy f).lookup "Label") p.label <;>
      simp [h, h1, h2, h3, h4]

/-- `orderPair` only produces ordered pairs. -/
theorem orderPair_ordered {a b : Option ℚ} {lo hi : ℚ}
    (h : orderPair a b = some (lo, hi)) : lo ≤ hi := by
  cases a with
  | none => simp [orderPair] at h
  | some x =>
    cases b with
    | none => simp [orderPair] at h
    | some y =>
      simp only [orderPair, Option.some_inj] at h
      split_ifs at h with hxy
      · cases h
        exact hxy
      · cases h
        exact le_of_not_le hxy

/-- Every accepted `_parse_range` result is ordered. -/
theorem parse_range_ordered {s : String} {lo hi : ℚ}
    (h : parse_range s = some (lo, hi)) : lo ≤ hi := by
  simp only [parse_range] at h
  split at h
  · exact absurd h (by simp)
  · exact orderPair_ordered h

/-- Association lookup at the head key. -/
theorem lookup_cons_self {β : Type} (k : String) (v : β) (tl : List (String × β)) :
    List.lookup k ((k, v) :: tl) = some v := by
  simp [List.lookup]

/-- Association lookup skips a different head key. -/
theorem lookup_cons_ne {β : Type} {k k' : String} (h : k ≠ k') (v : β)
    (tl : List (String × β)) :
    List.lookup k ((k', v) :: tl) = List.lookup k tl := by
  simp [List.lookup, beq_eq_false_iff_ne.mpr h]

/-- `List.lookup` after a `setFilter` write. -/
theorem lookup_setFilter (fs : Filters) (key k : String) (v : FVal) :
    (setFilter fs key v).lookup k = if k = key then some v else fs.lookup k := by
  induction fs with
  | nil =>
    by_cases hk : k = key
    · subst hk
      simp [setFilter, lookup_cons_self]
    · simp only [setFilter]
      rw [lookup_cons_ne hk]
      simp [List.lookup, hk]
  | cons hd tl ih =>
    obtain ⟨k', v'⟩ := hd
    by_cases hk' : k' = key
    · subst hk'
      by_cases hk : k = k'
      · subst hk
        simp [setFilter, lookup_cons_self]
      · simp [setFilter, lookup_cons_ne hk, hk]
    · by_cases hk : k = k'
      · subst hk
        simp [setFilter, if_neg hk', lookup_cons_self, Ne.symm hk']
      · simp [setFilter, if_neg hk', lookup_cons_ne hk, ih]

end Lemmas

/--
Claim C6: numeric parsing treats a comma as the decimal separator when no dot
is present, strips internal spaces (and comma thousands separators when a dot
is present), and returns null for strings that reduce to only signs/dots; in
particular `parse_number("1 000,50") = 1000.50`, `parse_number("-") = null`,
and `parse_number("12.3abc") = 12.3`.
-/
theorem c6_parse_number_normalization :
    parse_number "1 000,50" = some (mkRat 2001 2) ∧
    parse_number "-" = none ∧
    parse_number "12.3abc" = some (mkRat 123 10) ∧
    parse_number "1,000.5" = some (mkRat 2001 2) ∧
    parse_number "+." = none ∧
    parse_number "-." = none := by
  exact ⟨by decide, by decide, by decide, by decide, by decide, by decide⟩

/--
Claim C7: an absent label filter or the wildcard expected value passes
regardless of the detected label (including a null one); a non-wildcard
expected label fails against a null or different detected label.  The
wildcard literal the program stores and compares is `"Any"`.
-/
theorem c7_label_filter_semantics :
    ∀ (d : Option String) (e d' : String),
      label_filter_passes none d = true ∧
      label_filter_passes (some (FVal.vstr "Any")) d = true ∧
      (e ≠ "" → e ≠ "Any" →
        label_filter_passes (some (FVal.vstr e)) none = false ∧
        (d' ≠ e → label_filter_passes (some (FVal.vstr e)) (some d') = false)) := by
  intro d e d'
  refine ⟨rfl, by simp [label_filter_passes, pyTruthy], ?_⟩
  intro he hA
  constructor
  · simp [label_filter_passes, pyTruthy, he, hA]
  · intro hd'
    simp [label_filter_passes, pyTruthy, he, hA, Ne.symm hd']

/-- Witness for C7 at concrete labels. -/
theorem c7_label_filter_semantics_witness :
    label_filter_passes (some (FVal.vstr "Dev Has Enough Money")) none = false ∧
    label_filter_passes (some (FVal.vstr "Dev Has Enough Money")) (some "Dev Wallet Empty") = false := by
  have h := c7_label_filter_semantics none "Dev Has Enough Money" "Dev Wallet Empty"
  refine ⟨(h.2.2 (by decide) (by decide)).1, (h.2.2 (by decide) (by decide)).2 (by decide)⟩

/--
Claim C5: a strategy matches if and only if each of the five filter checks
(age range, first-buy-% range, balance range, transaction-count range, label)
individually passes — a filter absent from the strategy passing by
construction — and permuting the order of the checks never changes the
verdict.
-/
theorem c5_and_semantics_commutative :
    ∀ (f : Filters) (p : ParsedFields) (age : ℚ) (l : List Bool),
      l.Perm (checkList f p age) →
      ((evalStrategy f p age = some true) ↔ l.all id = true) := by
  intro f p age l hperm
  exact (evalStrategy_eq_checks f p age).trans (all_id_perm hperm).symm

/-- Witness for C5: the balance-range scenario of spec §8, checks reversed. -/
theorem c5_and_semantics_commutative_witness :
    (evalStrategy balanceFilters balanceParsed 3 = some true) ∧
    ((evalStrategy balanceFilters balanceParsed 3 = some true) ↔
      ((checkList balanceFilters balanceParsed 3).reverse.all id = true)) :=
  ⟨by decide,
    c5_and_semantics_commutative balanceFilters balanceParsed 3
      (checkList balanceFilters balanceParsed 3).reverse (List.reverse_perm _)⟩

/--
Claim C9: every range committed to a draft through the builder's free-text
range input is stored with `from ≤ to`, so the strategy-level invariant that
every present range is ordered is preserved by the commit step.
-/
theorem c9_committed_ranges_ordered :
    ∀ (key text : String) (fs : Filters),
      rangesOrdered fs → rangesOrdered (commitRange key text fs) := by
  intro key text fs hfs
  unfold commitRange
  cases hpr : parse_range text with
  | none => exact hfs
  | some p =>
    obtain ⟨lo, hi⟩ := p
    intro k lo' hi' hlook
    rw [lookup_setFilter] at hlook
    by_cases hk : k = key
    · rw [if_pos hk] at hlook
      simp only [Option.some_inj, FVal.vrange.injEq] at hlook
      obtain ⟨h1, h2⟩ := hlook
      cases h1
      cases h2
      exact parse_range_ordered hpr
    · rw [if_neg hk] at hlook
      exact hfs k lo' hi' hlook

/-- Witness for C9: the out-of-order input `5,3` is stored as `3 → 5`. -/
theorem c9_committed_ranges_ordered_witness :
    (commitRange "Balance (SOL)" "5,3" [] =
      [("Balance (SOL)", FVal.vrange (some 3) (some 5))]) ∧
    rangesOrdered (commitRange "Balance (SOL)" "5,3" []) := by
  refine ⟨by decide, c9_committed_ranges_ordered "Balance (SOL)" "5,3" [] ?_⟩
  intro k lo hi h
  simp [List.lookup] at h

/--
Claim C10: a strategy whose `owner_id` is present but cannot be interpreted
as an integer belongs to every requesting owner — the ownership test fails
open instead of raising or excluding the record, so the strategy appears in
every owner's scoped view.
-/
theorem c10_nonnumeric_owner_fails_open :
    ∀ (st : Strategy) (owner : ℤ) (l : List Strategy) (s : String),
      st.owner_id = OwnerVal.vstr s → pyIntOfString s = none →
      belongs_to st (some owner) = true ∧ (st ∈ l → st ∈ ownedBy l owner) := by
  intro st owner l s hid hint
  have hb : belongs_to st (some owner) = true := by
    simp [belongs_to, hid, hint]
  exact ⟨hb, fun hm => List.mem_filter.mpr ⟨hm, hb⟩⟩

/-- Witness for C10 at a concrete strategy with `owner_id = "admin"`. -/
theorem c10_nonnumeric_owner_fails_open_witness :
    belongs_to legacyStrat (some 42) = true ∧ legacyStrat ∈ ownedBy [legacyStrat] 42 := by
  have h := c10_nonnumeric_owner_fails_open legacyStrat 42 [legacyStrat] "admin" rfl (by decide)
  exact ⟨h.1, h.2 (List.mem_singleton.mpr rfl)⟩

/--
Claim C3 (counterexample): the claim's own counting — a range is meaningful
only with both bounds non-null — gives zero for a draft of three half-set
ranges, yet the save is accepted and the store grows: the implementation's
counter also counts a `{from, to}` dict with a null bound (through its final
`not in (None, '', 'Any')` branch), so this draft is not rejected.
-/
theorem c3_counterexample :
    claimedMeaningfulFilterCount halfRangeFilters = 0 ∧
    count_filled_filters halfRangeFilters = 3 ∧
    (onSave SaveMode.create halfRangeDraft 7 1000 []).1 = SaveOutcome.savedCreate ∧
    (onSave SaveMode.create halfRangeDraft 7 1000 []).2 ≠ [] := by
  exact ⟨by decide, by decide, by decide, by decide⟩

/--
Claim C3 (amended): an interactive save of a draft whose group is set,
non-empty and not the order venue, and whose filters contain fewer than 3
filled options as counted by `_count_filled_filters` — which additionally
counts half-set ranges and any other non-`None`/`''`/`'Any'` value — is
rejected with a user-facing validation message, leaving the persisted list
unchanged.
-/
theorem c3_min_filter_gate :
    ∀ (mode : SaveMode) (d : ConvDraft) (sid nowTs : ℤ) (store : List Strategy) (g : String),
      d.group = some g → g ≠ "" → g ≠ "@solana_trojanbot" →
      count_filled_filters d.filters < 3 →
      onSave mode d sid nowTs store = (SaveOutcome.tooFewFilters, store) := by
  intro mode d sid nowTs store g hg hne htr hcnt
  unfold onSave
  rw [hg]
  simp [hne, htr, hcnt]

/-- Witness for C3 (amended) at a draft with a single filled filter. -/
theorem c3_min_filter_gate_witness :
    onSave SaveMode.create
        (⟨some "few", some "@SolanaNewPumpfun",
          [("Balance (SOL)", FVal.vrange (some 1) (some 5))], none, none⟩ : ConvDraft)
        7 1000 [] = (SaveOutcome.tooFewFilters, []) :=
  c3_min_filter_gate SaveMode.create _ 7 1000 [] "@SolanaNewPumpfun" rfl (by decide)
    (by decide) (by decide)

/--
Claim C4 (counterexample): two distinct texts with the same normalized form
need not derive the same dedup key — here a 32-character upper-case token
and its lower-case form normalize identically, but each extracts a different
address, so the second call right after the first still reports
not-a-duplicate, against the claim's "same normalized text returns true".
-/
theorem c4_counterexample :
    normalize_text upperToken = normalize_text lowerToken ∧
    upperToken ≠ lowerToken ∧
    (is_duplicate [] 0 upperToken).1 = false ∧
    (is_duplicate (is_duplicate [] 0 upperToken).2 0 lowerToken).1 = false := by
  exact ⟨by decide, by decide, by decide, by decide⟩

/--
Claim C4 (amended): starting from an empty cache, the first `_is_duplicate`
call returns false; a following call with any text deriving the same dedup
key (the identical text, or any text whose extracted address equals the
first's) within the TTL returns true and leaves the stored timestamp — the
whole cache — unchanged; once the entry's age exceeds the 6-hour TTL, a call
with the same key returns false again.
-/
theorem c4_dedup_roundtrip :
    ∀ (t1 t2 t3 : String) (n1 n2 n3 : ℚ),
      dedupe_key_for t2 = dedupe_key_for t1 →
      dedupe_key_for t3 = dedupe_key_for t1 →
      n2 - n1 ≤ DEDUP_TTL_SECONDS →
      DEDUP_TTL_SECONDS < n3 - n1 →
      (is_duplicate [] n1 t1).1 = false ∧
      (is_duplicate (is_duplicate [] n1 t1).2 n2 t2).1 = true ∧
      (is_duplicate (is_duplicate [] n1 t1).2 n2 t2).2 = (is_duplicate [] n1 t1).2 ∧
      (is_duplicate (is_duplicate (is_duplicate [] n1 t1).2 n2 t2).2 n3 t3).1 = false := by
  intro t1 t2 t3 n1 n2 n3 hk2 hk3 h2 h3
  have e1 : is_duplicate [] n1 t1 = (false, [(dedupe_key_for t1, n1)]) := by
    simp [is_duplicate, setKey, List.lookup]
  have fil2 : (([(dedupe_key_for t1, n1)] : Cache)).filter
      (fun kv => !decide (DEDUP_TTL_SECONDS < qSub n2 kv.2)) = [(dedupe_key_for t1, n1)] := by
    simp [qSub_eq, not_lt.mpr h2]
  have e2 : is_duplicate [(dedupe_key_for t1, n1)] n2 t2 = (true, [(dedupe_key_for t1, n1)]) := by
    simp only [is_duplicate, fil2, hk2]
    rw [lookup_cons_self]
    simp [qSub_eq, h2]
  have fil3 : (([(dedupe_key_for t1, n1)] : Cache)).filter
      (fun kv => !decide (DEDUP_TTL_SECONDS < qSub n3 kv.2)) = [] := by
    simp [qSub_eq, h3]
  have e3 : is_duplicate [(dedupe_key_for t1, n1)] n3 t3 = (false, [(dedupe_key_for t3, n3)]) := by
    simp only [is_duplicate, fil3]
    simp [List.lookup, setKey]
  refine ⟨by simp [e1], ?_, ?_, ?_⟩
  · rw [e1]
    simpa using congrArg Prod.fst e2
  · rw [e1]
    simpa using congrArg Prod.snd e2
  · rw [e1]
    have : (is_duplicate [(dedupe_key_for t1, n1)] n2 t2).2 = [(dedupe_key_for t1, n1)] := by
      simp [e2]
    rw [this]
    simp [e3]

/-- Witness for C4 at a concrete text and clock values 0, 0, 21601. -/
theorem c4_dedup_roundtrip_witness :
    (is_duplicate [] 0 "dup probe").1 = false ∧
    (is_duplicate (is_duplicate [] 0 "dup probe").2 0 "dup probe").1 = true ∧
    (is_duplicate (is_duplicate [] 0 "dup probe").2 0 "dup probe").2 =
      (is_duplicate [] 0 "dup probe").2 ∧
    (is_duplicate (is_duplicate (is_duplicate [] 0 "dup probe").2 0 "dup probe").2
      21601 "dup probe").1 = false :=
  c4_dedup_roundtrip "dup probe" "dup probe" "dup probe" 0 0 21601 rfl rfl
    (by norm_num [DEDUP_TTL_SECONDS]) (by norm_num [DEDUP_TTL_SECONDS])

/--
Claim C1 (counterexample): with the pause flag set, an inbound group message
is still recorded by the duplicate check — the cache gains the message's key
— because `handler` calls `_is_duplicate` before either pipeline checks the
pause flag; only the later stages (field extraction, evaluation) are
skipped.  This contradicts "the deduplication cache is left completely
unchanged".
-/
theorem c1_counterexample :
    (handler parseFnStub true [] [] 0 "SolanaNewPumpfun" 0 "hello").proc =
      some ⟨false, []⟩ ∧
    (handler parseFnStub true [] [] 0 "SolanaNewPumpfun" 0 "hello").cache ≠ [] := by
  exact ⟨by decide, by decide⟩

/--
Claim C1 (amended): when the global pause flag is set, an inbound monitored
group message is dropped without field extraction or strategy evaluation —
`parse_message_fields` is not invoked and nothing matches — but the dedup
cache is still updated exactly as by `_is_duplicate` (expired entries
evicted, the message's key inserted), because the duplicate check runs
before the pause check.
-/
theorem c1_paused_pipeline :
    ∀ (parseFn : String → ParsedFields) (strategies : List Strategy) (cache : Cache)
      (now : ℚ) (group : String) (age : ℚ) (text : String),
      (group = "SolanaNewPumpfun" ∨ group = "solana_trojanbot") →
      (handler parseFn true strategies cache now group age text).cache =
        (is_duplicate cache now text).2 ∧
      (∀ pr, (handler parseFn true strategies cache now group age text).proc = some pr →
        pr.parseInvoked = false ∧ pr.matched = []) := by
  intro parseFn strategies cache now group age text hg
  rcases hg with h | h <;> subst h <;>
    cases hb : (is_duplicate cache now text).1 <;>
      constructor <;>
        simp [handler, hb, process_trojan_message, process_token_message]

/-- Witness for C1 (amended) at a concrete paused pipeline run. -/
theorem c1_paused_pipeline_witness :
    (handler parseFnStub true [] [] 0 "SolanaNewPumpfun" 0 "hi").cache =
      (is_duplicate [] 0 "hi").2 ∧
    (handler parseFnStub true [] [] 0 "SolanaNewPumpfun" 0 "hi").proc =
      some ⟨false, []⟩ :=
  ⟨(c1_paused_pipeline parseFnStub [] [] 0 "SolanaNewPumpfun" 0 "hi" (Or.inl rfl)).1,
    by decide⟩

/-- The token string of the C2 counterexample (the wrapped-SOL mint address). -/
def exToken : String := "So11111111111111111111111111111111111111112"

/--
Claim C2 (counterexample): a completed limit flow with the expiry `30m`
produces `expiry=30` — the stored minutes value truncated to an integer —
not `expiry=1800` seconds as claimed.
-/
theorem c2_counterexample :
    limitAdHocFlow exToken "1" "30m" "2" "0.5" =
      some ("solana_trojanbot",
        "/limit token=" ++ exToken ++ " amount=1.0 slippage=2.0 trigger=0.5 expiry=30") ∧
    ("/limit token=" ++ exToken ++ " amount=1.0 slippage=2.0 trigger=0.5 expiry=30" ≠
      "/limit token=" ++ exToken ++ " amount=1.0 slippage=2.0 trigger=0.5 expiry=1800") := by
  exact ⟨by decide, by decide⟩

/--
Claim C2 (amended): every completed limit-order flow hands the fixed venue a
command of the exact shape `/limit token=<address> amount=<number>
slippage=<number> trigger=<number> expiry=<E>` where `E` is the user-entered
expiry duration converted to minutes and truncated to an integer (entering
`30m` yields `expiry=30`).
-/
theorem c2_limit_command_minutes :
    ∀ (token amtTxt expTxt slipTxt trigTxt : String) (a e sl tr : ℚ),
      parse_number amtTxt = some a →
      parse_duration_to_minutes expTxt = some e →
      parse_number slipTxt = some sl →
      parse_number trigTxt = some tr →
      limitAdHocFlow token amtTxt expTxt slipTxt trigTxt =
        some ("solana_trojanbot",
          "/limit token=" ++ token ++ " amount=" ++ pyFloatRepr a ++
            " slippage=" ++ pyFloatRepr sl ++ " trigger=" ++ pyFloatRepr tr ++
            " expiry=" ++ toString (pyIntOfRat e)) := by
  intro token amtTxt expTxt slipTxt trigTxt a e sl tr ha he hs ht
  simp [limitAdHocFlow, ha, he, hs, ht, limitCommand]

section FormatLemmas

/-- `consOk` over `appendOk` collects into one prefix. -/
theorem consOk_appendOk (c : Char) (s : List Char) (r : Except String (List Char)) :
    consOk c (appendOk s r) = appendOk (c :: s) r := by
  cases r <;> rfl

/-- `appendOk` with an empty prefix. -/
theorem appendOk_nil (r : Except String (List Char)) : appendOk [] r = r := by
  cases r <;> rfl

/-- `appendOk` on a successful render. -/
theorem appendOk_ok (s t : List Char) : appendOk s (Except.ok t) = Except.ok (s ++ t) := rfl

/-- A brace-free character is neither brace. -/
theorem nonBrace_spec {c : Char} (h : nonBrace c = true) : ¬c = '\x7b' ∧ ¬c = '\x7d' := by
  simpa [nonBrace, not_or] using h

/-- Scanning a brace-free literal emits it verbatim. -/
theorem fmtRun_lit (ctx : String → Option String) (s rest : List Char)
    (h : s.all nonBrace = true) :
    fmtRun ctx (s ++ rest) FmtState.text = appendOk s (fmtRun ctx rest FmtState.text) := by
  induction s with
  | nil => rw [List.nil_append, appendOk_nil]
  | cons c cs ih =>
    rw [List.all_cons, Bool.and_eq_true] at h
    obtain ⟨hc, hcs⟩ := h
    obtain ⟨h1, h2⟩ := nonBrace_spec hc
    show fmtRun ctx (c :: (cs ++ rest)) FmtState.text = _
    simp only [fmtRun, if_neg h1, if_neg h2]
    rw [ih hcs, consOk_appendOk]

/-- Scanning the rest of a field name up to its closing brace. -/
theorem fmtRun_field (ctx : String → Option String) (n : List Char) (rest : List Char) :
    ∀ acc, n.all nonBrace = true →
      fmtRun ctx (n ++ '\x7d' :: rest) (FmtState.field acc) =
        if validFieldName (acc ++ n) then
          appendOk ((ctx (String.mk (acc ++ n))).getD "").data (fmtRun ctx rest FmtState.text)
        else Except.error "Invalid replacement field" := by
  induction n with
  | nil =>
    intro acc _
    simp only [List.nil_append, List.append_nil]
    simp [fmtRun]
  | cons c cs ih =>
    intro acc h
    rw [List.all_cons, Bool.and_eq_true] at h
    obtain ⟨hc, hcs⟩ := h
    obtain ⟨h1, h2⟩ := nonBrace_spec hc
    show fmtRun ctx (c :: (cs ++ '\x7d' :: rest)) (FmtState.field acc) = _
    simp only [fmtRun, if_neg h1, if_neg h2]
    rw [ih (acc ++ [c]) hcs, ← List.append_cons]

/-- A valid template scans to exactly the prescribed rendering. -/
theorem fmtRun_encode (ctx : String → Option String) (ts : List Seg) :
    validSegs ts = true →
    fmtRun ctx (encodeSegs ts) FmtState.text = Except.ok (renderSegs ctx ts) := by
  induction ts with
  | nil => intro _; rfl
  | cons s r ih =>
    intro h
    rw [validSegs, List.all_cons, Bool.and_eq_true] at h
    obtain ⟨hs, hr⟩ := h
    have ihr := ih hr
    cases s with
    | lit l =>
      rw [validSeg] at hs
      show fmtRun ctx (l ++ encodeSegs r) FmtState.text = _
      rw [fmtRun_lit ctx l _ hs, ihr, appendOk_ok]
      rfl
    | field n =>
      rw [validSeg, Bool.and_eq_true] at hs
      obtain ⟨hv, hnb⟩ := hs
      cases n with
      | nil => exact absurd hv (by simp [validFieldName])
      | cons c ntail =>
        rw [List.all_cons, Bool.and_eq_true] at hnb
        obtain ⟨hc, hntail⟩ := hnb
        obtain ⟨h1, h2⟩ := nonBrace_spec hc
        show fmtRun ctx ('\x7b' :: ((c :: ntail) ++ '\x7d' :: encodeSegs r)) FmtState.text = _
        have step1 : fmtRun ctx ('\x7b' :: ((c :: ntail) ++ '\x7d' :: encodeSegs r)) FmtState.text
            = fmtRun ctx ((c :: ntail) ++ '\x7d' :: encodeSegs r) FmtState.brace := by
          simp [fmtRun]
        have step2 : fmtRun ctx ((c :: ntail) ++ '\x7d' :: encodeSegs r) FmtState.brace
            = fmtRun ctx (ntail ++ '\x7d' :: encodeSegs r) (FmtState.field [c]) := by
          rw [List.cons_append]
          simp [fmtRun, h1, h2]
        rw [step1, step2, fmtRun_field ctx ntail _ [c] hntail, List.singleton_append,
          if_pos hv, ihr, appendOk_ok]
        rfl

end FormatLemmas

/--
Claim C8 (counterexample): rendering does not return a string for every
template — the malformed template consisting of a single open brace raises
(`str.format_map` fails before `__missing__` is ever consulted), so
`_safe_format` propagates an error that only the per-strategy handler
catches.
-/
theorem c8_counterexample :
    safe_format "\x7b" emptyCtx =
      Except.error "Single open brace encountered in format string" := rfl

/--
Claim C8 (amended): for every template built from brace-free literal text and
simple named placeholders, and every context, rendering substitutes each
placeholder with its context value, replaces a placeholder that has no
corresponding value with the empty string, and returns a string; a malformed
template (such as a lone `\x7b`) raises instead.
-/
theorem c8_template_rendering :
    ∀ (ts : List Seg) (ctx : String → Option String),
      validSegs ts = true →
      safe_format (String.mk (encodeSegs ts)) ctx =
        Except.ok (String.mk (renderSegs ctx ts)) := by
  intro ts ctx h
  unfold safe_format
  rw [show (String.mk (encodeSegs ts)).data = encodeSegs ts from rfl, fmtRun_encode ctx ts h]

/-- Witness for C8 (amended) at the template `buy (token)` with a bound and a missing key. -/
theorem c8_template_rendering_witness :
    (safe_format (String.mk (encodeSegs buyTokenSegs)) (singletonCtx "token" "MINT") =
      Except.ok (String.mk (renderSegs (singletonCtx "token" "MINT") buyTokenSegs))) ∧
    safe_format "buy \x7btoken\x7d" (singletonCtx "token" "MINT") = Except.ok "buy MINT" ∧
    safe_format "buy \x7btoken\x7d" emptyCtx = Except.ok "buy " :=
  ⟨c8_template_rendering buyTokenSegs (singletonCtx "token" "MINT") (by decide),
    rfl, rfl⟩

/-- Witness for C2 (amended) at concrete flow inputs with expiry `30m`. -/
theorem c2_limit_command_minutes_witness :
    limitAdHocFlow exToken "1" "30m" "2" "0.5" =
      some ("solana_trojanbot",
        "/limit token=" ++ exToken ++ " amount=" ++ pyFloatRepr 1 ++
          " slippage=" ++ pyFloatRepr 2 ++ " trigger=" ++ pyFloatRepr (mkRat 1 2) ++
          " expiry=" ++ toString (pyIntOfRat 30)) :=
  c2_limit_command_minutes exToken "1" "30m" "2" "0.5" 1 30 2 (mkRat 1 2)
    (by decide) (by decide) (by decide) (by decide)

end SolSniper
